import Mathlib

/-!
# Verification of `lib/txMode.js` (Transaction Mode library)

Shallow embedding of the single source file `lib/txMode.js`:

* `isolationLevel` — the frozen registry of isolation-level names;
* `TransactionMode` — the builder that turns `(tiLevel, readOnly, deferrable)`
  into the lower-case and upper-case `begin ...` command strings.

JavaScript runtime values are modelled by the inductive type `JSVal`;
the numeric coercions (`ToNumber` on strings, `parseInt`) follow the
ECMAScript algorithms the code relies on, specialised to the fragment
representable here (numbers are modelled as integers for `jnum`, with
rational values arising from string parsing; `NaN` and the infinities are
explicit constructors of `JNum`).
-/

set_option maxRecDepth 4000

namespace TxMode

/-- A JavaScript runtime value, as far as `txMode.js` can observe one.
Objects are modelled by the three properties the code ever reads
(`tiLevel`, `readOnly`, `deferrable`); any other property pattern is
indistinguishable to the code from `undefined` fields. -/
inductive JSVal : Type where
  | undefined : JSVal
  | jnull : JSVal
  | jbool : Bool → JSVal
  | jnum : Int → JSVal
  | jstr : String → JSVal
  | jobj : JSVal → JSVal → JSVal → JSVal
deriving DecidableEq, Repr

namespace JSVal

/-- JavaScript truthiness (`ToBoolean`). -/
def truthy : JSVal → Bool
  | .undefined => false
  | .jnull => false
  | .jbool b => b
  | .jnum n => decide (n ≠ 0)
  | .jstr s => decide (s ≠ "")
  | .jobj _ _ _ => true

/-- `typeof v === 'object'` (true for `null` and for plain objects). -/
def isObjectType : JSVal → Bool
  | .jnull => true
  | .jobj _ _ _ => true
  | _ => false

/-- JavaScript `ToString` (default `ToPrimitive` for plain objects). -/
def jsToString : JSVal → String
  | .undefined => "undefined"
  | .jnull => "null"
  | .jbool b => if b then "true" else "false"
  | .jnum n => toString n
  | .jstr s => s
  | .jobj _ _ _ => "[object Object]"

/-- Property read `v.tiLevel` (only reached by the code when `v` is a
truthy object, where it is the stored field). -/
def fieldTiLevel : JSVal → JSVal
  | .jobj t _ _ => t
  | _ => .undefined

/-- Property read `v.readOnly`. -/
def fieldReadOnly : JSVal → JSVal
  | .jobj _ r _ => r
  | _ => .undefined

/-- Property read `v.deferrable`. -/
def fieldDeferrable : JSVal → JSVal
  | .jobj _ _ d => d
  | _ => .undefined

end JSVal

/-- A JavaScript number as needed for the `> 0` comparison: `NaN`, the two
infinities, or a finite value (rational, since string coercion can produce
fractions and exponents). -/
inductive JNum : Type where
  | nan : JNum
  | inf : JNum
  | negInf : JNum
  | val : Rat → JNum
deriving DecidableEq, Repr

/-- Negation on `JNum` (for a leading `-` sign in a numeric string). -/
def JNum.neg : JNum → JNum
  | .nan => .nan
  | .inf => .negInf
  | .negInf => .inf
  | .val q => .val (-q)

/-- The whitespace characters stripped by ECMAScript `ToNumber`/`parseInt`
(ASCII whitespace, NBSP and the BOM; other Unicode spaces are outside the
fragment modelled here). -/
def isJsWS (c : Char) : Bool :=
  c = ' ' || c = '\t' || c = '\n' || c = '\r' || c = '\x0b' || c = '\x0c' ||
  c = '\xa0' || c = '\ufeff'

/-- Strip leading and trailing JS whitespace from a character list. -/
def jsTrim (l : List Char) : List Char :=
  ((l.dropWhile isJsWS).reverse.dropWhile isJsWS).reverse

/-- Value of a decimal digit character, `none` otherwise. -/
def decVal (c : Char) : Option Nat :=
  if c.isDigit then some (c.toNat - 48) else none

/-- Value of a hexadecimal digit character, `none` otherwise. -/
def hexVal (c : Char) : Option Nat :=
  if c.isDigit then some (c.toNat - 48)
  else if 'a' ≤ c && c ≤ 'f' then some (c.toNat - 87)
  else if 'A' ≤ c && c ≤ 'F' then some (c.toNat - 55)
  else none

/-- Value of an octal digit character, `none` otherwise. -/
def octVal (c : Char) : Option Nat :=
  if '0' ≤ c && c ≤ '7' then some (c.toNat - 48) else none

/-- Value of a binary digit character, `none` otherwise. -/
def binVal (c : Char) : Option Nat :=
  if c = '0' || c = '1' then some (c.toNat - 48) else none

/-- Numeric value of a list of decimal digits (most significant first). -/
def decNat (l : List Char) : Nat :=
  l.foldl (fun a c => a * 10 + (c.toNat - 48)) 0

/-- Read a whole list as digits of the given radix; `none` if the list is
empty or contains a non-digit (ECMAScript `StrNumericLiteral`, non-decimal
branches). -/
def radixAll (radix : Nat) (digVal : Char → Option Nat) (l : List Char) : Option Nat :=
  match l with
  | [] => none
  | _ => l.foldl (fun acc c =>
      match acc, digVal c with
      | some a, some d => some (a * radix + d)
      | _, _ => none) (some 0)

/-- Exponent part of a decimal literal: empty, or `e`/`E`, optional sign,
one or more digits; anything else makes the whole literal invalid. -/
def parseExpPart (base : Rat) (l : List Char) : Option Rat :=
  match l with
  | [] => some base
  | c :: rest =>
    if c = 'e' || c = 'E' then
      match rest with
      | '+' :: ds =>
        if ds ≠ [] && ds.all Char.isDigit then some (base * (10 : Rat) ^ decNat ds) else none
      | '-' :: ds =>
        if ds ≠ [] && ds.all Char.isDigit then some (base / (10 : Rat) ^ decNat ds) else none
      | ds =>
        if ds ≠ [] && ds.all Char.isDigit then some (base * (10 : Rat) ^ decNat ds) else none
    else none

/-- Unsigned ECMAScript `StrUnsignedDecimalLiteral` without the `Infinity`
case: `digits [. digits]` or `. digits`, followed by an optional exponent
part, consuming the whole list. -/
def parseDecLiteral (l : List Char) : Option Rat :=
  let ip := l.takeWhile Char.isDigit
  let rest := l.dropWhile Char.isDigit
  match rest with
  | '.' :: rest2 =>
    let fp := rest2.takeWhile Char.isDigit
    let rest3 := rest2.dropWhile Char.isDigit
    if ip = [] && fp = [] then none
    else parseExpPart ((decNat ip : Rat) + (decNat fp : Rat) / (10 : Rat) ^ fp.length) rest3
  | _ =>
    if ip = [] then none else parseExpPart (decNat ip : Rat) rest

/-- Unsigned numeric literal: `Infinity` or a decimal literal. -/
def parseUnsignedNumeric (l : List Char) : JNum :=
  if l = "Infinity".toList then .inf
  else match parseDecLiteral l with
    | some q => .val q
    | none => .nan

/-- Signed decimal branch of `StrNumericLiteral`. -/
def parseSignedNumeric (l : List Char) : JNum :=
  match l with
  | '-' :: rest => (parseUnsignedNumeric rest).neg
  | '+' :: rest => parseUnsignedNumeric rest
  | _ => parseUnsignedNumeric l

/-- ECMAScript `StringNumericLiteral` value of a trimmed character list:
empty means `0`; `0x`/`0o`/`0b` prefixes select a non-decimal radix
(no sign allowed there); otherwise a signed decimal literal or `Infinity`;
any failure is `NaN`. -/
def strNumericValue (l : List Char) : JNum :=
  match l with
  | [] => .val 0
  | '0' :: c :: rest =>
    if c = 'x' || c = 'X' then
      match radixAll 16 hexVal rest with
      | some n => .val n
      | none => .nan
    else if c = 'o' || c = 'O' then
      match radixAll 8 octVal rest with
      | some n => .val n
      | none => .nan
    else if c = 'b' || c = 'B' then
      match radixAll 2 binVal rest with
      | some n => .val n
      | none => .nan
    else parseSignedNumeric l
  | _ => parseSignedNumeric l

/-- `ToNumber` of a string. -/
def strToJNum (s : String) : JNum :=
  strNumericValue (jsTrim s.toList)

/-- `ToNumber` of a value. A plain object converts via its default string
form `"[object Object]"`, which is `NaN`. -/
def jsToJNum : JSVal → JNum
  | .undefined => .nan
  | .jnull => .val 0
  | .jbool b => .val (if b then 1 else 0)
  | .jnum n => .val n
  | .jstr s => strToJNum s
  | .jobj _ _ _ => .nan

/-- The comparison `v > 0` of the source (abstract relational comparison:
`ToNumber`, with `NaN` comparing false). -/
def jsGtZero (v : JSVal) : Bool :=
  match jsToJNum v with
  | .nan => false
  | .inf => true
  | .negInf => false
  | .val q => decide (0 < q)

/-- Longest prefix of valid digits, as `parseInt` takes; `none` when the
prefix is empty. -/
def parseIntDigits (radix : Nat) (digVal : Char → Option Nat) (l : List Char) : Option Nat :=
  let ds := l.takeWhile (fun c => (digVal c).isSome)
  match ds with
  | [] => none
  | _ => some (ds.foldl (fun a c => a * radix + (digVal c).getD 0) 0)

/-- ECMAScript `parseInt(v)` with no radix argument: `ToString`, trim,
optional sign, `0x`/`0X` prefix selects base 16, otherwise base 10; the
longest valid digit prefix is read and `none` (`NaN`) returned when it is
empty. -/
def parseIntJS (v : JSVal) : Option Int :=
  let l0 := jsTrim (JSVal.jsToString v).toList
  let sl : Int × List Char :=
    match l0 with
    | '-' :: rest => (-1, rest)
    | '+' :: rest => (1, rest)
    | _ => (1, l0)
  let body : Option Nat :=
    match sl.2 with
    | '0' :: c :: rest =>
      if c = 'x' || c = 'X' then parseIntDigits 16 hexVal rest
      else parseIntDigits 10 decVal sl.2
    | _ => parseIntDigits 10 decVal sl.2
  body.map (fun n => sl.1 * n)

/-! ## The `isolationLevel` registry (lines 8-22 of the source) -/

/-- A JavaScript object holding integer properties, with the `[[Extensible]]`
/ frozen state made explicit so that `Object.freeze` is observable. -/
structure JSRegistry : Type where
  props : List (String × Int)
  frozen : Bool
deriving DecidableEq, Repr

/-- Property lookup on a registry object. -/
def JSRegistry.get (r : JSRegistry) (k : String) : Option Int :=
  (r.props.find? (fun p => p.1 = k)).map Prod.snd

/-- Property assignment `r[k] = v`. The file runs in strict mode, so an
assignment to a property of a frozen object throws a `TypeError`; on a
non-frozen object it updates (or adds) the property. -/
def JSRegistry.set (r : JSRegistry) (k : String) (v : Int) : Except String JSRegistry :=
  if r.frozen then .error "TypeError"
  else if (r.props.find? (fun p => p.1 = k)).isSome then
    .ok { r with props := r.props.map (fun p => if p.1 = k then (k, v) else p) }
  else .ok { r with props := r.props ++ [(k, v)] }

/-- Property deletion `delete r[k]` (also rejected on a frozen object in
strict mode). -/
def JSRegistry.del (r : JSRegistry) (k : String) : Except String JSRegistry :=
  if r.frozen then .error "TypeError"
  else .ok { r with props := r.props.filter (fun p => ¬ p.1 = k) }

/-- `Object.freeze`. -/
def objectFreeze (r : JSRegistry) : JSRegistry :=
  { r with frozen := true }

/-- The object literal assigned to `isolationLevel` before it is frozen. -/
def isolationLevelLiteral : JSRegistry :=
  ⟨[("none", 0), ("serializable", 1), ("repeatableRead", 2), ("readCommitted", 3)], false⟩

/-- The exported `isolationLevel` registry: the literal, frozen at module
initialization by `Object.freeze(isolationLevel)`. -/
def isolationLevel : JSRegistry :=
  objectFreeze isolationLevelLiteral

/-! ## The `TransactionMode` constructor (lines 53-107 of the source) -/

open JSVal

/-- The guard `tiLevel && typeof tiLevel === 'object'` that selects the
configuration-record calling shape. -/
def isRecordArg (t : JSVal) : Bool :=
  t.truthy && t.isObjectType

/-- Lines 59-63: when the first argument is a truthy object, `readOnly`,
`deferrable` and `tiLevel` are overwritten by its fields; otherwise the
three positional arguments stand. -/
def destructureArgs (t r d : JSVal) : JSVal × JSVal × JSVal :=
  if isRecordArg t then (t.fieldTiLevel, t.fieldReadOnly, t.fieldDeferrable)
  else (t, r, d)

/-- Line 67: `tiLevel = (tiLevel > 0) ? parseInt(tiLevel) : 0;`.
The result is a number: `none` models `NaN` (which `parseInt` can return). -/
def normalizeTiLevel (v : JSVal) : Option Int :=
  if jsGtZero v then parseIntJS v else some 0

/-- Line 70 of the source: the isolation-level fragment table. -/
def isoValues : List String := ["serializable", "repeatable read", "read committed"]

/-- Lines 69-72: the isolation clause, from the normalized `tiLevel`
(`none`, i.e. `NaN`, fails the `tiLevel > 0` test). -/
def isoClauseOfNum : Option Int → Option String
  | none => none
  | some t =>
    if 0 < t ∧ t < 4 then some ("isolation level " ++ isoValues.getD (t - 1).toNat "")
    else none

/-- The isolation clause produced for a `tiLevel` value. -/
def isolationClause (v : JSVal) : Option String :=
  isoClauseOfNum (normalizeTiLevel v)

/-- Lines 74-80: the access-mode clause. A truthy `readOnly` gives
`read only`; otherwise any value other than `undefined` gives `read write`. -/
def accessModeClause (r : JSVal) : Option String :=
  if r.truthy then some "read only"
  else if r ≠ .undefined then some "read write"
  else none

/-- Lines 82-88: the deferrable clause, same shape as the access mode. -/
def deferrableClause (d : JSVal) : Option String :=
  if d.truthy then some "deferrable"
  else if d ≠ .undefined then some "not deferrable"
  else none

/-- Lines 90-100: append a clause (all clauses are non-empty strings, so
the `if (clause)` truthiness tests of the source are the `some` case). -/
def appendClause (b : String) : Option String → String
  | none => b
  | some c => b ++ " " ++ c

/-- The assembled lower-case command: `begin`, then the three clauses in
their fixed order. -/
def buildBegin (t r d : JSVal) : String :=
  appendClause (appendClause (appendClause "begin" (isolationClause t))
    (accessModeClause r)) (deferrableClause d)

/-- JavaScript `String.prototype.toUpperCase` on the ASCII strings built
here. -/
def jsToUpperCase (s : String) : String :=
  ⟨s.data.map Char.toUpper⟩

/-- The state a constructed `TransactionMode` instance closes over: the
lower-case command `begin` and its upper-cased copy `capBegin`, both
computed once inside the constructor. -/
structure TransactionMode : Type where
  beginVal : String
  capBegin : String
deriving DecidableEq, Repr

/-- Lines 65-102 of the constructor body, applied to an already
destructured `(tiLevel, readOnly, deferrable)` triple. -/
def buildFromConfig (t r d : JSVal) : TransactionMode :=
  let b := buildBegin t r d
  ⟨b, jsToUpperCase b⟩

/-- `new TransactionMode(tiLevel, readOnly, deferrable)`: destructure the
record shape if given, then build. -/
def TransactionMode.make (t r d : JSVal) : TransactionMode :=
  let a := destructureArgs t r d
  buildFromConfig a.1 a.2.1 a.2.2

/-- Lines 104-106: `this.begin = function (cap) { return cap ? capBegin : begin; }`. -/
def TransactionMode.begin (m : TransactionMode) (cap : Bool) : String :=
  if cap then m.capBegin else m.beginVal

/-- Lines 55-57: invoking `TransactionMode` either with `new` (so `this` is
already an instance and the body runs) or as a plain call (so the
`instanceof` guard fails and `new TransactionMode(...)` is returned). Both
paths construct via `TransactionMode.make`. -/
def transactionModeInvoke (withNew : Bool) (t r d : JSVal) : TransactionMode :=
  if withNew then TransactionMode.make t r d
  else TransactionMode.make t r d

/-! ## String observations used to state the claims -/

/-- Number of occurrences of `pat` as a contiguous sublist (positions are
counted, so overlapping occurrences all count). -/
def countInfixAux (pat : List Char) : List Char → Nat
  | [] => if pat = [] then 1 else 0
  | c :: rest => (if pat.isPrefixOf (c :: rest) then 1 else 0) + countInfixAux pat rest

/-- Number of occurrences of the substring `pat` in `s`. -/
def countInfix (pat s : String) : Nat :=
  countInfixAux pat.toList s.toList

/-- Whether `pat` occurs as a substring of `s`. -/
def hasInfix (pat s : String) : Bool :=
  countInfix pat s != 0

/-- Whether `p` is a prefix of `s`. -/
def strStartsWith (p s : String) : Bool :=
  p.toList.isPrefixOf s.toList

/-- Whether `s` ends in a space character. -/
def endsWithSpace (s : String) : Bool :=
  s.toList.getLast? = some ' '

/-- The characters a clause contributes to the assembled command: nothing
when absent, one space and the clause text when present. -/
def clausePart : Option String → String
  | none => ""
  | some c => " " ++ c

/-! ## Case lemmas: each clause takes one of finitely many values -/

theorem isolationClause_cases (t : JSVal) :
    isolationClause t = none ∨
    isolationClause t = some "isolation level serializable" ∨
    isolationClause t = some "isolation level repeatable read" ∨
    isolationClause t = some "isolation level read committed" := by
  cases hn : normalizeTiLevel t with
  | none => exact Or.inl (by simp [isolationClause, isoClauseOfNum, hn])
  | some k =>
    have he : isolationClause t =
        if 0 < k ∧ k < 4 then some ("isolation level " ++ isoValues.getD (k - 1).toNat "")
        else none := by
      simp [isolationClause, isoClauseOfNum, hn]
    by_cases h : 0 < k ∧ k < 4
    · rw [he, if_pos h]
      have h3 : k = 1 ∨ k = 2 ∨ k = 3 := by omega
      rcases h3 with rfl | rfl | rfl
      · exact Or.inr (Or.inl (by decide))
      · exact Or.inr (Or.inr (Or.inl (by decide)))
      · exact Or.inr (Or.inr (Or.inr (by decide)))
    · rw [he, if_neg h]
      exact Or.inl rfl

theorem accessModeClause_cases (r : JSVal) :
    accessModeClause r = none ∨
    accessModeClause r = some "read only" ∨
    accessModeClause r = some "read write" := by
  unfold accessModeClause
  by_cases h : r.truthy = true
  · rw [if_pos h]; exact Or.inr (Or.inl rfl)
  · rw [if_neg h]
    by_cases h2 : r = JSVal.undefined
    · rw [if_neg (by simp [h2])]; exact Or.inl rfl
    · rw [if_pos h2]; exact Or.inr (Or.inr rfl)

theorem deferrableClause_cases (d : JSVal) :
    deferrableClause d = none ∨
    deferrableClause d = some "deferrable" ∨
    deferrableClause d = some "not deferrable" := by
  unfold deferrableClause
  by_cases h : d.truthy = true
  · rw [if_pos h]; exact Or.inr (Or.inl rfl)
  · rw [if_neg h]
    by_cases h2 : d = JSVal.undefined
    · rw [if_neg (by simp [h2])]; exact Or.inl rfl
    · rw [if_pos h2]; exact Or.inr (Or.inr rfl)

theorem make_eq_buildFromConfig (t r d : JSVal) :
    ∃ a b c, TransactionMode.make t r d = buildFromConfig a b c :=
  ⟨_, _, _, rfl⟩

/-! ## Claims -/

/-- C8: constructing from the single record `{tiLevel:3, readOnly:false,
deferrable:false}` yields
`begin isolation level read committed read write not deferrable`, and a
construction with no arguments yields `begin` (lower) / `BEGIN` (upper). -/
theorem claim_C8 :
    (TransactionMode.make (.jobj (.jnum 3) (.jbool false) (.jbool false)) .undefined .undefined).begin false
      = "begin isolation level read committed read write not deferrable"
  ∧ (TransactionMode.make .undefined .undefined .undefined).begin false = "begin"
  ∧ (TransactionMode.make .undefined .undefined .undefined).begin true = "BEGIN" := by
  refine ⟨?_, ?_, ?_⟩ <;> decide

/-- C5: for every input configuration, the upper-case result of the query
operation is the upper-casing of the lower-case result, and repeated calls
with the same flag return identical strings (in this pure embedding both
strings are fixed at construction, so the query is side-effect-free by
construction). -/
theorem claim_C5 (t r d : JSVal) :
    (TransactionMode.make t r d).begin true
      = jsToUpperCase ((TransactionMode.make t r d).begin false)
  ∧ ∀ cap : Bool,
      (TransactionMode.make t r d).begin cap = (TransactionMode.make t r d).begin cap :=
  ⟨rfl, fun _ => rfl⟩

/-- C10: invoking the constructor without `new` (the `instanceof` guard
fails and the function returns `new TransactionMode(...)`) produces the
same query results as invoking it with `new`, for every input triple. -/
theorem claim_C10 (t r d : JSVal) (cap : Bool) :
    (transactionModeInvoke false t r d).begin cap
      = (transactionModeInvoke true t r d).begin cap := rfl

/-- C7: when the first argument is a structured (truthy, object-typed)
value, the builder is exactly the one built from the record's three fields;
the positional `readOnly`/`deferrable` arguments are ignored, and a record
with all fields unset resets everything, producing bare `begin`. -/
theorem claim_C7 (ta ra da r d r' d' : JSVal) :
    TransactionMode.make (.jobj ta ra da) r d = buildFromConfig ta ra da
  ∧ TransactionMode.make (.jobj ta ra da) r d = TransactionMode.make (.jobj ta ra da) r' d'
  ∧ (TransactionMode.make (.jobj .undefined .undefined .undefined) r d).begin false = "begin" :=
  ⟨rfl, rfl, rfl⟩

/-- C9: the `isolationLevel` registry holds exactly the four members
`none = 0`, `serializable = 1`, `repeatableRead = 2`, `readCommitted = 3`
and is frozen at initialization: in strict mode every later property
assignment or deletion on it is rejected with a `TypeError`. -/
theorem claim_C9 :
    isolationLevel.props
      = [("none", 0), ("serializable", 1), ("repeatableRead", 2), ("readCommitted", 3)]
  ∧ isolationLevel.props.length = 4
  ∧ (∀ k v, isolationLevel.set k v = Except.error "TypeError")
  ∧ (∀ k, isolationLevel.del k = Except.error "TypeError") :=
  ⟨rfl, rfl, fun _ _ => rfl, fun _ => rfl⟩

/-- C2 (counterexample): the builder emits `read only` for the truthy
non-boolean `readOnly = 1`, and `read write` for the falsy defined
`readOnly = 0`, so neither clause is tied to a strict `=== true` /
`=== false` comparison as the claim states. -/
theorem claim_C2_counterexample :
    ((TransactionMode.make .undefined (.jnum 1) .undefined).begin false = "begin read only"
      ∧ JSVal.jnum 1 ≠ JSVal.jbool true)
  ∧ ((TransactionMode.make .undefined (.jnum 0) .undefined).begin false = "begin read write"
      ∧ JSVal.jnum 0 ≠ JSVal.jbool false) := by
  refine ⟨⟨?_, ?_⟩, ⟨?_, ?_⟩⟩ <;> decide

/-- C2 (amended): the access-mode clause is `read only` exactly when
`readOnly` is truthy, `read write` exactly when `readOnly` is falsy but
defined, and absent exactly when `readOnly` is `undefined`. -/
theorem claim_C2_amended (r : JSVal) :
    (accessModeClause r = some "read only" ↔ r.truthy = true)
  ∧ (accessModeClause r = some "read write" ↔ (r.truthy = false ∧ r ≠ .undefined))
  ∧ (accessModeClause r = none ↔ r = .undefined) := by
  unfold accessModeClause
  by_cases h : r.truthy = true
  · have hne : r ≠ JSVal.undefined := by
      intro he; rw [he] at h; exact absurd h (by decide)
    simp [h, hne]
  · have h' : r.truthy = false := by simpa using h
    by_cases h2 : r = JSVal.undefined
    · subst h2; simp [JSVal.truthy]
    · simp [h', h2]

/-- C3 (counterexample): the builder emits `deferrable` for the truthy
non-boolean `deferrable = 1`, so the clause is not tied to a strict
`=== true` comparison as the claim states. -/
theorem claim_C3_counterexample :
    (TransactionMode.make .undefined .undefined (.jnum 1)).begin false = "begin deferrable"
  ∧ JSVal.jnum 1 ≠ JSVal.jbool true := by
  refine ⟨?_, ?_⟩ <;> decide

/-- C3 (amended): the deferrable clause is `deferrable` exactly when
`deferrable` is truthy, `not deferrable` exactly when `deferrable` is falsy
but defined, and absent exactly when `deferrable` is `undefined`; whenever
`deferrable` is truthy the output contains `deferrable` but not the
substring `not deferrable`. -/
theorem claim_C3_amended (t r d : JSVal) :
    (deferrableClause d = some "deferrable" ↔ d.truthy = true)
  ∧ (deferrableClause d = some "not deferrable" ↔ (d.truthy = false ∧ d ≠ .undefined))
  ∧ (deferrableClause d = none ↔ d = .undefined)
  ∧ (d.truthy = true →
      hasInfix "deferrable" ((buildFromConfig t r d).begin false) = true
      ∧ hasInfix "not deferrable" ((buildFromConfig t r d).begin false) = false) := by
  refine ⟨?_, ?_, ?_, ?_⟩
  · unfold deferrableClause
    by_cases h : d.truthy = true
    · simp [h]
    · have h' : d.truthy = false := by simpa using h
      by_cases h2 : d = JSVal.undefined
      · subst h2; simp
      · simp [h', h2]
  · unfold deferrableClause
    by_cases h : d.truthy = true
    · have hne : d ≠ JSVal.undefined := by
        intro he; rw [he] at h; exact absurd h (by decide)
      simp [h, hne]
    · have h' : d.truthy = false := by simpa using h
      by_cases h2 : d = JSVal.undefined
      · subst h2; simp
      · simp [h', h2]
  · unfold deferrableClause
    by_cases h : d.truthy = true
    · have hne : d ≠ JSVal.undefined := by
        intro he; rw [he] at h; exact absurd h (by decide)
      simp [h, hne]
    · have h' : d.truthy = false := by simpa using h
      by_cases h2 : d = JSVal.undefined
      · subst h2; simp [JSVal.truthy]
      · simp [h', h2]
  · intro hd
    have hdc : deferrableClause d = some "deferrable" := by
      unfold deferrableClause; rw [if_pos hd]
    have hb : (buildFromConfig t r d).begin false = buildBegin t r d := rfl
    rw [hb]
    unfold buildBegin
    rw [hdc]
    rcases isolationClause_cases t with h1 | h1 | h1 | h1 <;> rw [h1] <;>
      rcases accessModeClause_cases r with h2 | h2 | h2 <;> rw [h2] <;> decide

/-- C3 (witness): at `deferrable = true` the output contains `deferrable`
and not `not deferrable`. -/
theorem claim_C3_witness :
    hasInfix "deferrable" ((buildFromConfig .undefined .undefined (.jbool true)).begin false) = true
    ∧ hasInfix "not deferrable" ((buildFromConfig .undefined .undefined (.jbool true)).begin false)
        = false :=
  (claim_C3_amended .undefined .undefined (.jbool true)).2.2.2 (by decide)

/-- C4: for every input configuration the lower-case output is `begin`
followed by the isolation, access-mode and deferrable clauses in that fixed
order, each present clause contributing exactly one leading space; the
string contains no double space, does not end in a space, and starts with
`begin`. -/
theorem claim_C4 (t r d : JSVal) :
    (buildFromConfig t r d).begin false
      = "begin" ++ clausePart (isolationClause t) ++ clausePart (accessModeClause r)
          ++ clausePart (deferrableClause d)
  ∧ countInfix "  " ((buildFromConfig t r d).begin false) = 0
  ∧ endsWithSpace ((buildFromConfig t r d).begin false) = false
  ∧ strStartsWith "begin" ((buildFromConfig t r d).begin false) = true := by
  have hb : (buildFromConfig t r d).begin false = buildBegin t r d := rfl
  rw [hb]
  unfold buildBegin
  rcases isolationClause_cases t with h1 | h1 | h1 | h1 <;> rw [h1] <;>
    rcases accessModeClause_cases r with h2 | h2 | h2 <;> rw [h2] <;>
      rcases deferrableClause_cases d with h3 | h3 | h3 <;> rw [h3] <;> decide

/-- C6: construction never fails for any input values: both query results
are always defined strings of the expected shape (the lower one starts
with `begin`, the upper one with `BEGIN`); in this embedding every
operation is a total function. -/
theorem claim_C6 (t r d : JSVal) :
    strStartsWith "begin" ((TransactionMode.make t r d).begin false) = true
  ∧ strStartsWith "BEGIN" ((TransactionMode.make t r d).begin true) = true := by
  obtain ⟨a, b, c, habc⟩ := make_eq_buildFromConfig t r d
  rw [habc]
  have h1 : (buildFromConfig a b c).begin false = buildBegin a b c := rfl
  have h2 : (buildFromConfig a b c).begin true = jsToUpperCase (buildBegin a b c) := rfl
  rw [h1, h2]
  unfold buildBegin
  rcases isolationClause_cases a with h3 | h3 | h3 | h3 <;> rw [h3] <;>
    rcases accessModeClause_cases b with h4 | h4 | h4 <;> rw [h4] <;>
      rcases deferrableClause_cases c with h5 | h5 | h5 <;> rw [h5] <;> decide

/-- C1: if `tiLevel` normalizes (line 67: numeric `> 0` test, then
`parseInt` of its string representation) to 1, 2 or 3, the output contains
`isolation level ` followed by the mapped fragment exactly once,
immediately after `begin`; for every other `tiLevel` (normalizing to 0, a
negative, 4 or more, or `NaN`) the output has no `isolation level`
substring; and a truthy non-numeric `tiLevel` fails the `> 0` comparison
and silently normalizes to 0. -/
theorem claim_C1 (v r d : JSVal) :
    (∀ k : Int, normalizeTiLevel v = some k → 0 < k → k < 4 →
      countInfix "isolation level" ((buildFromConfig v r d).begin false) = 1
      ∧ strStartsWith ("begin isolation level " ++ isoValues.getD (k - 1).toNat "")
          ((buildFromConfig v r d).begin false) = true)
  ∧ ((¬ ∃ k : Int, normalizeTiLevel v = some k ∧ 0 < k ∧ k < 4) →
      countInfix "isolation level" ((buildFromConfig v r d).begin false) = 0)
  ∧ (v.truthy = true → jsToJNum v = JNum.nan → normalizeTiLevel v = some 0) := by
  have hb : (buildFromConfig v r d).begin false = buildBegin v r d := rfl
  refine ⟨?_, ?_, ?_⟩
  · intro k hk h0 h4
    have he : isolationClause v =
        if 0 < k ∧ k < 4 then some ("isolation level " ++ isoValues.getD (k - 1).toNat "")
        else none := by
      simp [isolationClause, isoClauseOfNum, hk]
    have hiso : isolationClause v
        = some ("isolation level " ++ isoValues.getD (k - 1).toNat "") := by
      rw [he, if_pos ⟨h0, h4⟩]
    have h3 : k = 1 ∨ k = 2 ∨ k = 3 := by omega
    rw [hb]
    unfold buildBegin
    rw [hiso]
    rcases h3 with rfl | rfl | rfl <;>
      rcases accessModeClause_cases r with h5 | h5 | h5 <;> rw [h5] <;>
        rcases deferrableClause_cases d with h6 | h6 | h6 <;> rw [h6] <;> decide
  · intro h
    have hiso : isolationClause v = none := by
      unfold isolationClause
      cases hn : normalizeTiLevel v with
      | none => rfl
      | some k =>
        have hnr : ¬ (0 < k ∧ k < 4) := fun hc => h ⟨k, hn, hc.1, hc.2⟩
        simp [isoClauseOfNum, hnr]
    rw [hb]
    unfold buildBegin
    rw [hiso]
    rcases accessModeClause_cases r with h5 | h5 | h5 <;> rw [h5] <;>
      rcases deferrableClause_cases d with h6 | h6 | h6 <;> rw [h6] <;> decide
  · intro _ hnan
    have hgz : jsGtZero v = false := by
      unfold jsGtZero; rw [hnan]
    unfold normalizeTiLevel
    rw [hgz]
    rfl

/-- C1 (witness): `tiLevel = 2` emits the `repeatable read` clause exactly
once right after `begin`; the truthy non-numeric string `"abc"` normalizes
to 0, and the output then has no `isolation level` substring. -/
theorem claim_C1_witness :
    (countInfix "isolation level" ((buildFromConfig (.jnum 2) .undefined .undefined).begin false) = 1
      ∧ strStartsWith ("begin isolation level " ++ isoValues.getD ((2 : Int) - 1).toNat "")
          ((buildFromConfig (.jnum 2) .undefined .undefined).begin false) = true)
  ∧ countInfix "isolation level" ((buildFromConfig (.jstr "abc") .undefined .undefined).begin false) = 0
  ∧ normalizeTiLevel (.jstr "abc") = some 0 :=
  ⟨(claim_C1 (.jnum 2) .undefined .undefined).1 2 (by decide) (by decide) (by decide),
   (claim_C1 (.jstr "abc") .undefined .undefined).2.1 (by
      rintro ⟨k, hk, h0, h4⟩
      rw [(by decide : normalizeTiLevel (.jstr "abc") = some 0)] at hk
      have := Option.some.inj hk
      omega),
   (claim_C1 (.jstr "abc") .undefined .undefined).2.2 (by decide) (by decide)⟩

end TxMode
